import Mathlib

/-!
Verification development for the curve-management core of the GraPen
repository (`src/js/curve/CurveManager.js`).

The JavaScript source is shallowly embedded: JS numbers that can be
non-finite are modelled by `JSNum` (a rational together with the three
IEEE special values that the code distinguishes via `Number.isFinite`),
the dense-but-sparse-tolerant curve array `this.curves` is modelled as a
`List (Option Curve)` (a `none` slot is a JS hole / `null` / `undefined`
slot), and the external collaborators (approximation strategies, the
graph calculator, the history manager) are modelled as function
parameters, an explicit flag, and an event trace respectively.
-/

/-- A JavaScript number as far as the embedded code can observe it:
finite (a rational), `+Infinity`, `-Infinity`, or `NaN`. -/
inductive JSNum where
  | fin (q : ℚ)
  | posInf
  | negInf
  | nan
deriving DecidableEq

/-- `Number.isFinite`. -/
def JSNum.isFiniteNum : JSNum → Bool
  | .fin _ => true
  | _ => false

/-- The finite value of a `JSNum`, when there is one. -/
def finPart : JSNum → Option ℚ
  | .fin q => some q
  | _ => none

/-- `Math.abs` on a JS number. -/
def jsAbs : JSNum → JSNum
  | .fin q => .fin |q|
  | .posInf => .posInf
  | .negInf => .posInf
  | .nan => .nan

/-- `1 - x` on a JS number (the literal `1` is finite). -/
def jsOneSub : JSNum → JSNum
  | .fin q => .fin (1 - q)
  | .posInf => .negInf
  | .negInf => .posInf
  | .nan => .nan

/-- `Math.max(0, x)` on a JS number (`Math.max` propagates `NaN`). -/
def jsMax0 : JSNum → JSNum
  | .fin q => .fin (max 0 q)
  | .posInf => .posInf
  | .negInf => .fin 0
  | .nan => .nan

/-- A point of the drawing domain, `[x, y]` in the source. -/
abbrev Point := ℚ × ℚ

/-- One entry of a curve's `preKnots` array: a scalar knot position along
the stroke and a removal priority (CurveManager.js line 81-83 reads
exactly these two fields). -/
structure PreKnot where
  knot : ℚ
  priority : ℤ
deriving DecidableEq

/-- The visible domain rectangle returned by
`graphCalculator.getDomain()`. -/
structure Domain where
  xMin : ℚ
  xMax : ℚ
  yMin : ℚ
  yMax : ℚ
deriving DecidableEq

/-- The `diagnostics` object of a strategy result; `getErrorScore` reads
only its `rmsError` field (line 2087). An absent field is `none`. -/
structure Diag where
  rmsError : Option JSNum
deriving DecidableEq

/-- One element of a strategy result's `segments` array;
`getErrorScore` reads only its `rmsError` field (line 2095). -/
structure Seg where
  rmsError : Option JSNum
deriving DecidableEq

/-- A strategy result (the source calls it an approximation).  The
fields are the ones CurveManager.js reads from the objects returned by
the seven approximators: `success`, `type`, `diagnostics`,
`averageLinearity`, `segments` (whose elements may be `null`),
`svgPath`, `latexEquations` (kept opaque as strings), `preKnots`, and
`knots`.  The `exportData` payload is never inspected by the claims and
is omitted. -/
structure Approximation where
  success : Bool
  type : Option String
  diagnostics : Option Diag
  averageLinearity : Option JSNum
  segments : Option (List (Option Seg))
  svgPath : String
  latexEquations : List String
  preKnots : List PreKnot
  knots : List Point
deriving DecidableEq

/-- `entry.approximation && entry.approximation.success` (line 2148). -/
def attemptSucceeded : Option Approximation → Bool
  | some a => a.success
  | none => false

/-- The per-segment error list of `getErrorScore` case (c)
(lines 2094-2097): map each segment to `Math.abs(seg.rmsError)` when the
segment is non-null and its `rmsError` is finite, to `null` otherwise,
and drop the nulls. -/
def segmentErrorList (segs : List (Option Seg)) : List ℚ :=
  segs.filterMap (fun os => os.bind (fun s =>
    match s.rmsError with
    | some (JSNum.fin q) => some |q|
    | _ => none))

/-- `getErrorScore` of CurveManager.js lines 2083-2102, translated
clause by clause: a null or unsuccessful approximation scores
`+Infinity`; otherwise finite `diagnostics.rmsError` gives
`Math.abs(rmsError)`; otherwise a numeric `averageLinearity` gives
`Math.max(0, 1 - averageLinearity)`; otherwise a `segments` array with
at least one finite per-segment `rmsError` gives the mean of the
absolute values of those errors; otherwise `+Infinity`. -/
def getErrorScore (a : Option Approximation) : JSNum :=
  match a with
  | none => JSNum.posInf
  | some ap =>
    if !ap.success then JSNum.posInf
    else
      match ap.diagnostics with
      | some d =>
        match d.rmsError with
        | some (JSNum.fin q) => JSNum.fin |q|
        | _ => getErrorScoreTail ap
      | none => getErrorScoreTail ap
where
  /-- Clauses (b)-(d) of the chain, shared by the two non-(a) paths. -/
  getErrorScoreTail (ap : Approximation) : JSNum :=
    match ap.averageLinearity with
    | some v => jsMax0 (jsOneSub v)
    | none =>
      match ap.segments with
      | some segs =>
        let segmentErrors := segmentErrorList segs
        if segmentErrors.length ≠ 0 then
          JSNum.fin (segmentErrors.sum / segmentErrors.length)
        else JSNum.posInf
      | none => JSNum.posInf

/-- Mean of a list of rationals (division by zero in `ℚ` never arises
at the call sites, which guard on non-emptiness). -/
def rmean (l : List ℚ) : ℚ := l.sum / l.length

/-- Clause (a) of the fallback chain as the spec words it: the score is
`abs(rmsError)` when `diagnostics.rmsError` is finite. -/
def claimRmsScore (ap : Approximation) : Option JSNum :=
  (ap.diagnostics.bind Diag.rmsError).bind (fun v =>
    (finPart v).map (fun q => JSNum.fin |q|))

/-- Clause (b) of the fallback chain as the spec words it: the score is
`max(0, 1 - averageLinearity)` when `averageLinearity` is present. -/
def claimLinearityScore (ap : Approximation) : Option JSNum :=
  ap.averageLinearity.map (fun v => jsMax0 (jsOneSub v))

/-- The finite per-segment `rmsError` values, when a segment array is
present (clause (c) of the spec chain). -/
def claimSegmentVals (ap : Approximation) : Option (List ℚ) :=
  ap.segments.map (fun segs =>
    segs.filterMap (fun os => os.bind (fun s => s.rmsError.bind finPart)))

/-- The error score exactly as claim C2 words it, applied to every
attempt with no success precondition: (a) finite `diagnostics.rmsError`
gives `abs(rmsError)`; (b) otherwise a present `averageLinearity` gives
`max(0, 1 - averageLinearity)`; (c) otherwise a present segment array
with finite per-segment `rmsError` values gives the mean of those
finite values; (d) otherwise `+Infinity`. -/
def specErrorScoreClaim (a : Option Approximation) : JSNum :=
  match a with
  | none => JSNum.posInf
  | some ap =>
    (((claimRmsScore ap).orElse (fun _ => claimLinearityScore ap)).orElse (fun _ =>
      (claimSegmentVals ap).bind (fun vals =>
        if vals.length ≠ 0 then some (JSNum.fin (rmean vals)) else none))).getD
      JSNum.posInf

/-- The error score as claim C2 must be amended to match the code:
attempts that are null or have `success ≠ true` always score
`+Infinity`, and clause (c) averages the absolute values of the finite
per-segment `rmsError` values. -/
def specErrorScoreAmended (a : Option Approximation) : JSNum :=
  if attemptSucceeded a then
    match a with
    | none => JSNum.posInf
    | some ap =>
      (((claimRmsScore ap).orElse (fun _ => claimLinearityScore ap)).orElse (fun _ =>
        (claimSegmentVals ap).bind (fun vals =>
          if vals.length ≠ 0 then
            some (JSNum.fin (rmean (vals.map (fun q => |q|))))
          else none))).getD JSNum.posInf
  else JSNum.posInf

/-- One element of the `attempts` array built by `addHandDrawnCurve`
(`registerAttempt`, lines 2104-2107): a label, the raw strategy result,
a priority tier, and the precomputed error score. -/
structure AttemptEntry where
  label : String
  approximation : Option Approximation
  priority : ℕ
  error : JSNum
deriving DecidableEq

/-- The six strategy invocations of `addHandDrawnCurve`
(lines 2109-2146); the quadratic-chain strategy is commented out in the
source and therefore absent.  Each field is the value returned by the
corresponding external approximator on the stroke. -/
structure StrategyResults where
  piecewise : Option Approximation
  linear : Option Approximation
  singleQuadratic : Option Approximation
  singleCircle : Option Approximation
  quadraticBSpline : Option Approximation
  selective : Option Approximation
deriving DecidableEq

/-- The `attempts` array in registration order (lines 2109-2146),
including the data-dependent priority and label of the linear attempt
(lines 2113-2114). -/
def buildAttempts (rs : StrategyResults) : List AttemptEntry :=
  let linearPriority : ℕ :=
    match rs.linear with
    | some a => if a.success && a.type == some "constant" then 1 else 2
    | none => 2
  let linearLabel : String :=
    match rs.linear with
    | some a => if a.success && a.type == some "vertical" then "linearVertical" else "linear"
    | none => "linear"
  [ { label := "piecewiseLinear", approximation := rs.piecewise, priority := 0,
      error := getErrorScore rs.piecewise },
    { label := linearLabel, approximation := rs.linear, priority := linearPriority,
      error := getErrorScore rs.linear },
    { label := "singleQuadratic", approximation := rs.singleQuadratic, priority := 3,
      error := getErrorScore rs.singleQuadratic },
    { label := "singleCircle", approximation := rs.singleCircle, priority := 4,
      error := getErrorScore rs.singleCircle },
    { label := "quadraticBSpline", approximation := rs.quadraticBSpline, priority := 5,
      error := getErrorScore rs.quadraticBSpline },
    { label := "selectiveHybrid", approximation := rs.selective, priority := 7,
      error := getErrorScore rs.selective } ]

/-- `Number.isFinite(e) ? e : Number.POSITIVE_INFINITY` (lines
2156-2157): the comparator replaces every non-finite error score,
including `-Infinity` and `NaN`, by `+Infinity`. -/
def normErr : JSNum → WithTop ℚ
  | JSNum.fin q => (q : WithTop ℚ)
  | _ => ⊤

/-- The sign of `String.prototype.localeCompare` modelled as the
code-point lexicographic comparison (all labels are plain ASCII). -/
def strCmp (a b : String) : Ordering :=
  if a < b then Ordering.lt else if b < a then Ordering.gt else Ordering.eq

/-- The comparator passed to `successfulAttempts.sort`
(lines 2152-2162): priority difference first, then the difference of
the normalised error scores, then `label.localeCompare`.  Only the sign
of the JS return value matters, so the result is an `Ordering`. -/
def attemptCmp (a b : AttemptEntry) : Ordering :=
  if a.priority ≠ b.priority then
    (if a.priority < b.priority then Ordering.lt else Ordering.gt)
  else if normErr a.error ≠ normErr b.error then
    (if normErr a.error < normErr b.error then Ordering.lt else Ordering.gt)
  else strCmp a.label b.label

/-- `a` sorts no later than `b` under the JS comparator. -/
def jsLe (a b : AttemptEntry) : Prop := attemptCmp a b ≠ Ordering.gt

instance : DecidableRel jsLe := fun a b => by unfold jsLe; infer_instance

/-- The spec's ranking relation, stated as the claims word it: priority
ascending, then error score ascending with non-finite scores last, then
label lexicographic. -/
def specLe (a b : AttemptEntry) : Prop :=
  a.priority < b.priority ∨
    (a.priority = b.priority ∧
      (normErr a.error < normErr b.error ∨
        (normErr a.error = normErr b.error ∧ a.label ≤ b.label)))

/-- `attempts.filter(entry => entry.approximation &&
entry.approximation.success)` (line 2148). -/
def successfulAttempts (l : List AttemptEntry) : List AttemptEntry :=
  l.filter (fun e => attemptSucceeded e.approximation)

/-- The winner of the selection: `successfulAttempts.sort(cmp)[0]` when
some attempt succeeded, `null` otherwise (lines 2150-2164).  JS
`Array.prototype.sort` is stable, which insertion sort models. -/
def bestAttempt (l : List AttemptEntry) : Option AttemptEntry :=
  (List.insertionSort jsLe (successfulAttempts l)).head?

/-- One entry of the `alternatives` diagnostic list (lines 2166-2172). -/
structure AltDiag where
  label : String
  type : Option String
  success : Bool
  priority : ℕ
  error : Option ℚ
deriving DecidableEq

/-- `attempts.map(entry => ({label, type, success, priority, error}))`
(lines 2166-2172); a non-finite error score is recorded as `null`. -/
def attemptDiagnostics (l : List AttemptEntry) : List AltDiag :=
  l.map (fun e =>
    { label := e.label,
      type := e.approximation.bind Approximation.type,
      success := attemptSucceeded e.approximation,
      priority := e.priority,
      error := finPart e.error })

/-- A curve entity of `this.curves`.  The fields are the ones the
source stores on curve objects (`addCurve` lines 282-304, the
placeholder literal lines 2044-2061, and the later in-place
assignments).  DOM/render handles are reduced to what the embedded code
observes of them: `path` keeps the SVG path data (`none` is the
placeholder's `null`), `hasGraphCurve` records whether `graphCurve` is
non-null.  Fields a JS object may lack entirely (`showKnots`,
`knotPoints`, `minKnots`, `maxKnots` on placeholders, `originalPoints`
when the descriptor omits it) are `Option`s.  The opaque
`approximationData`/`approximationDiagnostics` payloads are omitted: no
claim reads them. -/
structure Curve where
  id : ℕ
  type : Option String
  path : Option String
  color : String
  size : ℚ
  locked : Bool
  isHidden : Bool
  isDetailShown : Bool
  showKnots : Option Bool
  hasGraphCurve : Bool
  latexEquations : List String
  preKnots : List PreKnot
  knotCount : ℤ
  originalPoints : Option (List Point)
  minKnots : Option ℕ
  maxKnots : Option ℕ
  approximationType : Option String
  selectedApproximator : Option String
  approximatorPriority : Option ℕ
  knotPoints : Option (List Point)
deriving DecidableEq

/-- `this.curves[i]` on the sparse-tolerant array: out-of-range reads
and holes both give `undefined`, `null` slots give `null`; all of them
are falsy, so the model collapses them to `none`. -/
def getSlot : List (Option Curve) → ℕ → Option Curve
  | [], _ => none
  | x :: _, 0 => x
  | _ :: xs, n + 1 => getSlot xs n

/-- `this.curves[i] = v`: a write beyond the current length extends the
array with holes, exactly as JS assignment does. -/
def setSlot : List (Option Curve) → ℕ → Option Curve → List (Option Curve)
  | [], 0, v => [v]
  | [], n + 1, v => none :: setSlot [] n v
  | _ :: xs, 0, v => v :: xs
  | x :: xs, n + 1, v => x :: setSlot xs n v

/-- Mutate the curve object stored at slot `i` in place, when there is
one (JS mutates the object through the retained reference). -/
def updateSlot (l : List (Option Curve)) (i : ℕ) (f : Curve → Curve) :
    List (Option Curve) :=
  match getSlot l i with
  | some c => setSlot l i (some (f c))
  | none => l

/-- `Array.prototype.splice(i, 1)`: removes the slot at `i`, a no-op
when `i` is at or beyond the length. -/
def eraseAt : ℕ → List (Option Curve) → List (Option Curve)
  | _, [] => []
  | 0, _ :: ys => ys
  | n + 1, y :: ys => y :: eraseAt n ys

/-- `Array.prototype.splice(i, 0, v)`: inserts `v` at `i`, clamping an
index beyond the length to an append at the end, as JS does. -/
def insertAt (v : Option Curve) : ℕ → List (Option Curve) → List (Option Curve)
  | 0, l => v :: l
  | _ + 1, [] => [v]
  | n + 1, y :: ys => y :: insertAt v n ys

/-- The renumbering walk `this.curves.forEach((curve, index) => { if
(curve) curve.id = index; })` (lines 1205-1209 and 1655-1659), started
at index `k`. -/
def renumberFrom (k : ℕ) : List (Option Curve) → List (Option Curve)
  | [] => []
  | oc :: rest => oc.map (fun c => { c with id := k }) :: renumberFrom (k + 1) rest

/-- An event observable at the boundary of one operation: `push t` is a
call `historyManager.addAction({type: t, ...})`, `apply` is the point
where the operation's store mutation is applied.  The trace lists the
events in program order. -/
inductive Ev where
  | push (t : String)
  | apply
deriving DecidableEq

/-- Number of history records in a trace. -/
def pushCount (l : List Ev) : ℕ :=
  l.countP (fun e => match e with | Ev.push _ => true | Ev.apply => false)

/-- The state of a `CurveManager` as the claims observe it: the curve
array, `settings.nextCurveId`, and whether a graph calculator is
attached (the source checks `this.graphCalculator` for null). -/
structure ManagerState where
  curves : List (Option Curve)
  nextCurveId : ℕ
  hasGraphCalculator : Bool
deriving DecidableEq

/-- JS `x || d` for an optional natural: `undefined` and `0` are falsy. -/
def jsOrNat (x : Option ℕ) (d : ℕ) : ℕ :=
  match x with
  | some n => if n = 0 then d else n
  | none => d

/-- JS truthiness normalisation for an optional string: `undefined`,
`null` and the empty string are falsy. -/
def jsStrOpt (o : Option String) : Option String :=
  match o with
  | some s => if s = "" then none else some s
  | none => none

/-- JS `a || b || null` on optional strings. -/
def jsOrStr (a b : Option String) : Option String :=
  match jsStrOpt a with
  | some s => some s
  | none => jsStrOpt b

/-- The descriptor consumed by `addCurve` (lines 276-304). -/
structure CurveDescriptor where
  id : ℕ
  type : Option String
  path : Option String
  color : String
  size : ℚ
  locked : Bool
  hasGraphCurve : Bool
  latexEquations : Option (List String)
  preKnots : Option (List PreKnot)
  originalPoints : Option (List Point)
  minKnots : Option ℕ
  maxKnots : Option ℕ
  approximationType : Option String
  selectedApproximator : Option String
  approximatorPriority : Option ℕ
deriving DecidableEq

/-- The curve object literal built by `addCurve` (lines 282-304):
`isHidden` starts false, `isDetailShown` starts true, `knotCount` is
`latexEquations.length + 1` when an equation array was supplied and `0`
otherwise, `minKnots`/`maxKnots` default to 2/10 through `||`, and
`approximationType` falls back to `type`.  Fields not in the literal
(`showKnots`, `knotPoints`) are absent. -/
def mkCurveFromDescriptor (d : CurveDescriptor) : Curve :=
  { id := d.id,
    type := d.type,
    path := d.path,
    color := d.color,
    size := d.size,
    locked := d.locked,
    isHidden := false,
    isDetailShown := true,
    showKnots := none,
    hasGraphCurve := d.hasGraphCurve,
    latexEquations := d.latexEquations.getD [],
    preKnots := d.preKnots.getD [],
    knotCount := match d.latexEquations with
      | some l => (l.length : ℤ) + 1
      | none => 0,
    originalPoints := d.originalPoints,
    minKnots := some (jsOrNat d.minKnots 2),
    maxKnots := some (jsOrNat d.maxKnots 10),
    approximationType := jsOrStr d.approximationType d.type,
    selectedApproximator := jsStrOpt d.selectedApproximator,
    approximatorPriority := d.approximatorPriority,
    knotPoints := none }

/-- `addCurve` (lines 276-328): build the curve object, overwrite the
slot `descriptor.id` when it already holds a truthy value (the
placeholder pattern), otherwise `push` onto the end of the array;
finally push one `add` action to the history manager.  The trace
records that the store mutation precedes the history push. -/
def addCurveOp (st : ManagerState) (d : CurveDescriptor) :
    ManagerState × List Ev :=
  let curve := mkCurveFromDescriptor d
  let curves2 :=
    if (getSlot st.curves d.id).isSome then setSlot st.curves d.id (some curve)
    else st.curves ++ [some curve]
  ({ st with curves := curves2 }, [Ev.apply, Ev.push "add"])

/-- `deleteCurve` (lines 1179-1215): silently return when the slot is
falsy; otherwise push one `delete` action to the history manager (line
1185, before any mutation), splice the slot out, renumber every
remaining non-empty slot to its new index, and set
`settings.nextCurveId` to the new array length. -/
def deleteCurveOp (st : ManagerState) (id : ℕ) : ManagerState × List Ev :=
  match getSlot st.curves id with
  | none => (st, [])
  | some _ =>
    let curves2 := renumberFrom 0 (eraseAt id st.curves)
    ({ st with curves := curves2, nextCurveId := curves2.length },
      [Ev.push "delete", Ev.apply])

/-- `reorderCurves` (lines 1649-1685): read the slot at `fromId` (with
no guard: a missing slot reads as `undefined`), splice it out, splice
the read value back in at `toId`, renumber, and only then push one
`reorder` action to the history manager (line 1680). -/
def reorderCurvesOp (st : ManagerState) (fromId toId : ℕ) :
    ManagerState × List Ev :=
  let c := getSlot st.curves fromId
  let curves2 := renumberFrom 0 (insertAt c toId (eraseAt fromId st.curves))
  ({ st with curves := curves2 }, [Ev.apply, Ev.push "reorder"])

/-- `toggleCurveVisibility` (lines 1039-1060): silently return when the
slot is falsy; otherwise push one `toggleVisibility` action (line 1050)
and only then apply the flip through `setCurveVisibility` (line 1058,
which stores `isHidden = newHiddenState`). -/
def toggleCurveVisibilityOp (st : ManagerState) (id : ℕ) :
    ManagerState × List Ev :=
  match getSlot st.curves id with
  | none => (st, [])
  | some c =>
    let newHidden := !c.isHidden
    ({ st with curves := updateSlot st.curves id (fun u => { u with isHidden := newHidden }) },
      [Ev.push "toggleVisibility", Ev.apply])

/-- `toggleDetailVisibility` (lines 1144-1164): silently return when
the slot is falsy; otherwise push one `toggleDetails` action (line
1155) and only then apply the flip through `setCurveDetailState` (line
1163). -/
def toggleDetailVisibilityOp (st : ManagerState) (id : ℕ) :
    ManagerState × List Ev :=
  match getSlot st.curves id with
  | none => (st, [])
  | some c =>
    let newShown := !c.isDetailShown
    ({ st with curves := updateSlot st.curves id (fun u => { u with isDetailShown := newShown }) },
      [Ev.push "toggleDetails", Ev.apply])

/-- `clearCanvas` (lines 1574-1595): push one `clear` action (line
1575, before the mutation), empty the array, and reset
`settings.nextCurveId` to 0. -/
def clearCanvasOp (st : ManagerState) : ManagerState × List Ev :=
  ({ st with curves := [], nextCurveId := 0 }, [Ev.push "clear", Ev.apply])

/-- The result object returned by
`quadraticApproximator.approximateWithCustomKnots`, as `setKnotCount`
reads it (lines 85-108): `success`, `svgPath`, `latexEquations`,
`knots`. -/
structure SplineResult where
  success : Bool
  svgPath : String
  latexEquations : List String
  knots : List Point
deriving DecidableEq

/-- The arguments `setKnotCount` passes to
`approximateWithCustomKnots` (lines 85-89), recorded for observation. -/
structure KnotCall where
  points : List Point
  customKnots : List PreKnot
  domain : Domain
deriving DecidableEq

/-- Ascending order of `preKnots` entries by knot position, the order
induced by the comparator `(a, b) => a.knot - b.knot` (line 83). -/
def knotLe (a b : PreKnot) : Prop := a.knot ≤ b.knot

instance : DecidableRel knotLe := fun a b => by unfold knotLe; infer_instance

instance : IsTotal PreKnot knotLe :=
  ⟨fun a b => le_total a.knot b.knot⟩

instance : IsTrans PreKnot knotLe :=
  ⟨fun _ _ _ hab hbc => le_trans hab hbc⟩

/-- `setKnotCount` (lines 76-127).  The external quadratic-B-spline
strategy is the function parameter `approx` and the graph calculator's
domain is `dom`.  The operation silently returns when the slot is
falsy, the curve has no `originalPoints`, or no graph calculator is
attached.  Otherwise it filters `preKnots` to the entries with
`priority < knotCount - 2`, sorts them ascending by `knot` (stable JS
sort, modelled by insertion sort), and re-invokes the strategy on the
curve's `originalPoints`; the invocation is returned as a `KnotCall`.
On failure it returns before touching the curve (line 91); on success
(and only when the curve has a graph curve, line 94) it replaces
`latexEquations`, `knotPoints`, and `knotCount`. -/
def setKnotCountOp (st : ManagerState)
    (approx : List Point → List PreKnot → Domain → SplineResult)
    (dom : Domain) (curveId : ℕ) (k : ℤ) :
    ManagerState × Option KnotCall :=
  match getSlot st.curves curveId with
  | none => (st, none)
  | some curve =>
    match curve.originalPoints with
    | none => (st, none)
    | some pts =>
      if st.hasGraphCalculator = false then (st, none)
      else
        let customKnots :=
          List.insertionSort knotLe
            (curve.preKnots.filter (fun p => decide (p.priority < k - 2)))
        let result := approx pts customKnots dom
        let call : KnotCall := { points := pts, customKnots := customKnots, domain := dom }
        if result.success = false then (st, some call)
        else if curve.hasGraphCurve then
          ({ st with curves := updateSlot st.curves curveId (fun c =>
              { c with latexEquations := result.latexEquations,
                       knotPoints := some result.knots,
                       knotCount := k }) }, some call)
        else (st, some call)

/-- The descriptor consumed by `addHandDrawnCurve` (lines 2026-2039),
together with the two resolved approximator settings it reads
(`showKnotsDefault` for the placeholder, `maxKnots` for the created
curve). -/
structure HandDescriptor where
  id : ℕ
  domainPath : List Point
  color : String
  size : ℚ
  useAdvancedMode : Bool
  showKnotsDefault : Bool
  maxKnots : ℕ
deriving DecidableEq

/-- The placeholder curve object of `addHandDrawnCurve`
(lines 2044-2061): type `unknown`, no path, no graph curve, empty
equations and pre-knots, the original points saved, and no
`minKnots`/`maxKnots`/`knotPoints` fields at all. -/
def placeholderCurve (d : HandDescriptor) : Curve :=
  { id := d.id,
    type := some "unknown",
    path := none,
    color := if d.color = "" then "#000" else d.color,
    size := if d.size = 0 then 1 else d.size,
    locked := false,
    isHidden := false,
    isDetailShown := true,
    showKnots := some d.showKnotsDefault,
    hasGraphCurve := false,
    latexEquations := [],
    preKnots := [],
    knotCount := 0,
    originalPoints := some d.domainPath,
    minKnots := none,
    maxKnots := none,
    approximationType := none,
    selectedApproximator := none,
    approximatorPriority := none,
    knotPoints := none }

/-- The descriptor `addHandDrawnCurve` hands to `addCurve` on a
successful fit (lines 2254-2272). -/
def handWinnerDescriptor (d : HandDescriptor) (label : String)
    (priority : ℕ) (ap : Approximation) : CurveDescriptor :=
  { id := d.id,
    type := ap.type,
    path := some ap.svgPath,
    color := d.color,
    size := d.size,
    locked := false,
    hasGraphCurve := true,
    latexEquations := some ap.latexEquations,
    preKnots := some ap.preKnots,
    originalPoints := some d.domainPath,
    minKnots := some 2,
    maxKnots := some d.maxKnots,
    approximationType := ap.type,
    selectedApproximator := some label,
    approximatorPriority := some priority }

/-- The descriptor `addHandDrawnCurve` hands to `addCurve` in advanced
mode when no strategy succeeded (lines 2315-2325). -/
def advancedDescriptor (d : HandDescriptor) : CurveDescriptor :=
  { id := d.id,
    type := some "parametric",
    path := some "raw",
    color := d.color,
    size := d.size,
    locked := false,
    hasGraphCurve := true,
    latexEquations := some [],
    preKnots := none,
    originalPoints := some d.domainPath,
    minKnots := none,
    maxKnots := none,
    approximationType := none,
    selectedApproximator := none,
    approximatorPriority := none }

/-- The result object of `addHandDrawnCurve` as the claims observe it:
the `success` flag, the selected strategy and its priority from the
attached diagnostics, and the `alternatives` list (present on both the
fitted-success path, line 2182, and the failure path, line 2342, but
not on the advanced-mode path). -/
structure HandResult where
  success : Bool
  selectedApproximator : Option String
  approximatorPriority : Option ℕ
  alternatives : Option (List AltDiag)
deriving DecidableEq

/-- `addHandDrawnCurve` (lines 2026-2358) with the six strategy results
supplied as `rs`.  First the placeholder is installed when slot `id` is
falsy (lines 2043-2063); then the attempts are registered, filtered,
and ranked (lines 2082-2164).  A winner leads to `addCurve` plus the
in-place field assignments of lines 2286-2295; no winner leads either
to the advanced-mode `addCurve` (lines 2304-2335) or to the failure
path that nulls out a placeholder that never got a graph curve (lines
2337-2357).  The inner `some b / none` match on `b.approximation` is
unreachable for winners, which always passed the success filter. -/
def addHandDrawnCurve (st : ManagerState) (d : HandDescriptor)
    (rs : StrategyResults) : ManagerState × HandResult :=
  let st1 :=
    if (getSlot st.curves d.id).isSome then st
    else { st with curves := setSlot st.curves d.id (some (placeholderCurve d)) }
  let attempts := buildAttempts rs
  let alts := attemptDiagnostics attempts
  match bestAttempt attempts with
  | some b =>
    match b.approximation with
    | some ap =>
      let st2 := (addCurveOp st1 (handWinnerDescriptor d b.label b.priority ap)).1
      let st3 := { st2 with curves := updateSlot st2.curves d.id (fun c =>
          { c with knotPoints := some ap.knots,
                   originalPoints := some d.domainPath,
                   selectedApproximator := some b.label,
                   approximatorPriority := some b.priority,
                   approximationType := ap.type }) }
      (st3, { success := true, selectedApproximator := some b.label,
              approximatorPriority := some b.priority, alternatives := some alts })
    | none =>
      (st1, { success := false, selectedApproximator := none,
              approximatorPriority := none, alternatives := some alts })
  | none =>
    if d.useAdvancedMode then
      ((addCurveOp st1 (advancedDescriptor d)).1,
        { success := true, selectedApproximator := none,
          approximatorPriority := none, alternatives := none })
    else
      let st2 :=
        match getSlot st1.curves d.id with
        | some c =>
          if !c.hasGraphCurve || c.type == some "unknown" then
            { st1 with curves := setSlot st1.curves d.id none }
          else st1
        | none => st1
      (st2, { success := false, selectedApproximator := none,
              approximatorPriority := none, alternatives := some alts })

/-- One store operation of claim C3's closure: create via `addCurve`,
create via `addHandDrawnCurve`, delete, or reorder. -/
inductive COp where
  | create (d : CurveDescriptor)
  | hand (d : HandDescriptor) (rs : StrategyResults)
  | del (id : ℕ)
  | reorder (fromId toId : ℕ)

/-- Apply one operation to the store state. -/
def applyOp (st : ManagerState) : COp → ManagerState
  | COp.create d => (addCurveOp st d).1
  | COp.hand d rs => (addHandDrawnCurve st d rs).1
  | COp.del i => (deleteCurveOp st i).1
  | COp.reorder f t => (reorderCurvesOp st f t).1

/-- Apply a finite sequence of operations in order. -/
def applyOps (st : ManagerState) (l : List COp) : ManagerState :=
  l.foldl applyOp st

/-- The identity invariant of the spec: every non-empty slot stores a
curve whose `id` equals its index. -/
def StoreInvList (l : List (Option Curve)) : Prop :=
  ∀ i c, getSlot l i = some c → c.id = i

/-- The identity invariant on a manager state. -/
def StoreInv (st : ManagerState) : Prop := StoreInvList st.curves

/-- The proviso the amended claim C3 places on one step: an `addCurve`
call must target an existing non-empty slot (the placeholder pattern)
or use the next fresh index, which is what every caller in the source
does via `settings.nextCurveId`.  The other three operations need no
proviso. -/
def stepOK (st : ManagerState) : COp → Prop
  | COp.create d => (getSlot st.curves d.id).isSome ∨ d.id = st.curves.length
  | COp.hand _ _ => True
  | COp.del _ => True
  | COp.reorder _ _ => True

/-- Every step of the run satisfies its proviso in the state it is
applied to. -/
def RunOK : ManagerState → List COp → Prop
  | _, [] => True
  | st, op :: ops => stepOK st op ∧ RunOK (applyOp st op) ops

/-- The temporal shape claim C7 asserts of one operation's trace: all
store mutations happen first and the single history record is pushed
last, immediately before returning. -/
def RecordAfterMutation (t : List Ev) : Prop :=
  ∃ pre s, (∀ e ∈ pre, e = Ev.apply) ∧ t = pre ++ [Ev.push s]

/-- The `KnotCall` record `setKnotCount` produces for a given curve,
point list, domain, and desired knot count. -/
def knotCallOf (curve : Curve) (pts : List Point) (dom : Domain) (k : ℤ) : KnotCall :=
  { points := pts,
    customKnots := List.insertionSort knotLe
      (curve.preKnots.filter (fun p => decide (p.priority < k - 2))),
    domain := dom }

/-- A concrete curve used as test data by witnesses and counterexamples. -/
def sampleCurve : Curve :=
  { id := 0, type := some "quadratic", path := some "M0 0", color := "#ff0000",
    size := 2, locked := false, isHidden := false, isDetailShown := true,
    showKnots := some true, hasGraphCurve := true, latexEquations := ["a", "b"],
    preKnots := [{ knot := 3, priority := 0 }, { knot := 1, priority := 1 },
                 { knot := 2, priority := 5 }],
    knotCount := 3, originalPoints := some [(0, 0), (1, 1)], minKnots := some 2,
    maxKnots := some 10, approximationType := some "quadratic",
    selectedApproximator := some "quadraticBSpline", approximatorPriority := some 5,
    knotPoints := some [(0, 0)] }

/-- A one-curve manager state used as test data. -/
def sampleState : ManagerState :=
  { curves := [some sampleCurve], nextCurveId := 1, hasGraphCalculator := true }

/-- A hand-drawn-stroke descriptor used as test data. -/
def sampleHand : HandDescriptor :=
  { id := 1, domainPath := [(0, 0), (1, 1)], color := "#0000ff", size := 3,
    useAdvancedMode := false, showKnotsDefault := true, maxKnots := 10 }

/-- A successful linear strategy result with error score 5. -/
def apLinSample : Approximation :=
  { success := true, type := some "linear",
    diagnostics := some { rmsError := some (JSNum.fin 5) },
    averageLinearity := none, segments := none, svgPath := "L",
    latexEquations := ["l"], preKnots := [], knots := [] }

/-- A successful B-spline strategy result with the much smaller error
score 1/10. -/
def apBsSample : Approximation :=
  { success := true, type := some "quadratic",
    diagnostics := some { rmsError := some (JSNum.fin (1 / 10)) },
    averageLinearity := none, segments := none, svgPath := "Q",
    latexEquations := ["q1", "q2"], preKnots := [{ knot := 1, priority := 0 }],
    knots := [(0, 0), (1, 1)] }

/-- Strategy results where only linear (priority 2, error 5) and
quadratic B-spline (priority 5, error 1/10) succeed. -/
def rsTwoWins : StrategyResults :=
  { piecewise := none, linear := some apLinSample, singleQuadratic := none,
    singleCircle := none, quadraticBSpline := some apBsSample, selective := none }

/-- The attempt entry the selector must pick out of `rsTwoWins`: the
linear one, despite its larger error score. -/
def winTwoWins : AttemptEntry :=
  { label := "linear", approximation := some apLinSample, priority := 2,
    error := JSNum.fin 5 }

/-- Strategy results where every strategy fails to return a result. -/
def rsAllFail : StrategyResults :=
  { piecewise := none, linear := none, singleQuadratic := none,
    singleCircle := none, quadraticBSpline := none, selective := none }

/-- An unsuccessful strategy result that nevertheless carries a finite
`diagnostics.rmsError` of 1. -/
def apFailedFiniteRms : Approximation :=
  { success := false, type := none,
    diagnostics := some { rmsError := some (JSNum.fin 1) },
    averageLinearity := none, segments := none, svgPath := "",
    latexEquations := [], preKnots := [], knots := [] }

/-- An `addCurve` descriptor whose id (1) is neither an existing slot
nor the next fresh index of an empty store. -/
def badCreateDescriptor : CurveDescriptor :=
  { id := 1, type := some "linear", path := some "M", color := "#000000",
    size := 1, locked := false, hasGraphCurve := true, latexEquations := some [],
    preKnots := some [], originalPoints := some [], minKnots := some 2,
    maxKnots := some 10, approximationType := none, selectedApproximator := none,
    approximatorPriority := none }

/-- An `addCurve` descriptor for the fresh index 0 of an empty store. -/
def freshCreateDescriptor : CurveDescriptor :=
  { id := 0, type := some "linear", path := some "M", color := "#000000",
    size := 1, locked := false, hasGraphCurve := true, latexEquations := some [],
    preKnots := some [], originalPoints := some [], minKnots := some 2,
    maxKnots := some 10, approximationType := none, selectedApproximator := none,
    approximatorPriority := none }

/-- A B-spline re-approximation oracle that always fails. -/
def approxAlwaysFail : List Point → List PreKnot → Domain → SplineResult :=
  fun _ _ _ => { success := false, svgPath := "", latexEquations := [], knots := [] }

/-- A concrete visible domain used as test data. -/
def sampleDomain : Domain := { xMin := 0, xMax := 1, yMin := 0, yMax := 1 }

/-- The invocation record `setKnotCount` produces on `sampleState`,
curve 0, desired knot count 5: the two pre-knots with priority below 3,
sorted ascending by knot position. -/
def sampleKnotCall : KnotCall :=
  { points := [(0, 0), (1, 1)],
    customKnots := [{ knot := 1, priority := 1 }, { knot := 3, priority := 0 }],
    domain := sampleDomain }

/-- Three distinguishable curves in a store, ids 0, 1, 2. -/
def curveAt (i : ℕ) (col : String) : Curve :=
  { sampleCurve with id := i, color := col }

/-- A three-curve manager state used by the delete-reindex witness. -/
def threeState : ManagerState :=
  { curves := [some (curveAt 0 "#aa0000"), some (curveAt 1 "#00bb00"),
               some (curveAt 2 "#0000cc")],
    nextCurveId := 3, hasGraphCalculator := true }

/-- The empty manager state. -/
def emptyState : ManagerState :=
  { curves := [], nextCurveId := 0, hasGraphCalculator := true }

theorem getSlot_nil (i : ℕ) : getSlot [] i = none := by
  cases i <;> rfl

theorem getSlot_setSlot_self :
    ∀ (l : List (Option Curve)) (i : ℕ) (v : Option Curve),
      getSlot (setSlot l i v) i = v
  | [], 0, _ => rfl
  | [], n + 1, v => getSlot_setSlot_self [] n v
  | _ :: _, 0, _ => rfl
  | _ :: xs, n + 1, v => getSlot_setSlot_self xs n v

theorem getSlot_setSlot_ne (v : Option Curve) :
    ∀ (l : List (Option Curve)) (i j : ℕ), i ≠ j →
      getSlot (setSlot l i v) j = getSlot l j := by
  intro l
  induction l with
  | nil =>
    intro i
    induction i with
    | zero =>
      intro j h
      cases j with
      | zero => exact absurd rfl h
      | succ m => rfl
    | succ n ih =>
      intro j h
      cases j with
      | zero => rfl
      | succ m =>
        have := ih m (by omega)
        simpa [setSlot, getSlot] using this
  | cons x xs ih =>
    intro i j h
    cases i with
    | zero =>
      cases j with
      | zero => exact absurd rfl h
      | succ m => rfl
    | succ n =>
      cases j with
      | zero => rfl
      | succ m =>
        have := ih n m (by omega)
        simpa [setSlot, getSlot] using this

theorem getSlot_append_lt :
    ∀ (l : List (Option Curve)) (v : Option Curve) (j : ℕ), j < l.length →
      getSlot (l ++ [v]) j = getSlot l j := by
  intro l
  induction l with
  | nil => intro v j h; simp at h
  | cons x xs ih =>
    intro v j h
    cases j with
    | zero => rfl
    | succ m => simpa [getSlot] using ih v m (by simpa using h)

theorem getSlot_append_len (l : List (Option Curve)) (v : Option Curve) :
    getSlot (l ++ [v]) l.length = v := by
  induction l with
  | nil => rfl
  | cons x xs ih => simpa [getSlot] using ih

theorem getSlot_append_gt :
    ∀ (l : List (Option Curve)) (v : Option Curve) (j : ℕ), l.length < j →
      getSlot (l ++ [v]) j = none := by
  intro l
  induction l with
  | nil =>
    intro v j h
    cases j with
    | zero => omega
    | succ m => exact getSlot_nil m
  | cons x xs ih =>
    intro v j h
    cases j with
    | zero => omega
    | succ m => simpa [getSlot] using ih v m (by simpa using h)

theorem getSlot_renumberFrom :
    ∀ (l : List (Option Curve)) (k j : ℕ),
      getSlot (renumberFrom k l) j =
        (getSlot l j).map (fun c => { c with id := k + j }) := by
  intro l
  induction l with
  | nil => intro k j; simp [renumberFrom, getSlot_nil]
  | cons oc rest ih =>
    intro k j
    cases j with
    | zero => simp [renumberFrom, getSlot]
    | succ m =>
      have h := ih (k + 1) m
      have harith : k + 1 + m = k + (m + 1) := by omega
      rw [harith] at h
      simpa [renumberFrom, getSlot] using h

theorem length_renumberFrom :
    ∀ (l : List (Option Curve)) (k : ℕ), (renumberFrom k l).length = l.length := by
  intro l
  induction l with
  | nil => intro k; rfl
  | cons oc rest ih => intro k; simpa [renumberFrom] using ih (k + 1)

theorem length_eraseAt_of_lt :
    ∀ (l : List (Option Curve)) (i : ℕ), i < l.length →
      (eraseAt i l).length = l.length - 1 := by
  intro l
  induction l with
  | nil => intro i h; simp at h
  | cons x xs ih =>
    intro i h
    cases i with
    | zero => simp [eraseAt]
    | succ n =>
      have h2 : n < xs.length := by simpa using h
      have h3 := ih n h2
      simp only [eraseAt, List.length_cons, h3]
      omega

theorem getSlot_eraseAt_of_lt :
    ∀ (l : List (Option Curve)) (i j : ℕ), j < i →
      getSlot (eraseAt i l) j = getSlot l j := by
  intro l
  induction l with
  | nil => intro i j _; simp [eraseAt]
  | cons x xs ih =>
    intro i j h
    cases i with
    | zero => omega
    | succ n =>
      cases j with
      | zero => rfl
      | succ m => simpa [eraseAt, getSlot] using ih n m (by omega)

theorem getSlot_eraseAt_of_le :
    ∀ (l : List (Option Curve)) (i j : ℕ), i ≤ j →
      getSlot (eraseAt i l) j = getSlot l (j + 1) := by
  intro l
  induction l with
  | nil => intro i j _; simp [eraseAt, getSlot_nil]
  | cons x xs ih =>
    intro i j h
    cases i with
    | zero => rfl
    | succ n =>
      cases j with
      | zero => omega
      | succ m => simpa [eraseAt, getSlot] using ih n m (by omega)

theorem getSlot_some_lt :
    ∀ (l : List (Option Curve)) (i : ℕ) (c : Curve),
      getSlot l i = some c → i < l.length := by
  intro l
  induction l with
  | nil => intro i c h; rw [getSlot_nil] at h; exact absurd h (by simp)
  | cons x xs ih =>
    intro i c h
    cases i with
    | zero => simp
    | succ n =>
      have := ih n c h
      simpa using Nat.succ_lt_succ this

theorem storeInvList_renumber (l : List (Option Curve)) :
    StoreInvList (renumberFrom 0 l) := by
  intro i c h
  rw [getSlot_renumberFrom] at h
  cases hg : getSlot l i with
  | none => rw [hg] at h; simp at h
  | some u =>
    rw [hg] at h
    have h2 : ({ u with id := 0 + i } : Curve) = c := by simpa using h
    rw [← h2]
    simp

theorem jsLe_iff (a b : AttemptEntry) : jsLe a b ↔ specLe a b := by
  unfold jsLe specLe attemptCmp strCmp
  rcases Nat.lt_trichotomy a.priority b.priority with h | h | h
  · simp [Nat.ne_of_lt h, h]
  · simp only [h, ne_eq, not_true_eq_false, if_false, lt_self_iff_false,
      false_or, true_and, not_false_eq_true, if_true]
    rcases lt_trichotomy (normErr a.error) (normErr b.error) with he | he | he
    · simp [ne_of_lt he, he]
    · simp only [he, ne_eq, not_true_eq_false, if_false, lt_self_iff_false,
        false_or, true_and, not_false_eq_true, if_true]
      rcases lt_trichotomy a.label b.label with hl | hl | hl
      · simp [hl, le_of_lt hl]
      · simp [hl]
      · have h1 : ¬ a.label < b.label := not_lt_of_gt hl
        have h2 : ¬ a.label ≤ b.label := not_le_of_gt hl
        simp [h1, hl, h2]
    · have h1 : normErr a.error ≠ normErr b.error := ne_of_gt he
      have h2 : ¬ normErr a.error < normErr b.error := not_lt_of_gt he
      simp [h1, h2, ne_of_gt he]
  · have h1 : a.priority ≠ b.priority := Nat.ne_of_gt h
    have h2 : ¬ a.priority < b.priority := by omega
    have h3 : ¬ a.priority = b.priority := h1
    simp [h1, h2, h3]

theorem jsLe_refl (a : AttemptEntry) : jsLe a a :=
  (jsLe_iff a a).mpr (Or.inr ⟨rfl, Or.inr ⟨rfl, le_refl _⟩⟩)

theorem specLe_total (a b : AttemptEntry) : specLe a b ∨ specLe b a := by
  unfold specLe
  rcases Nat.lt_trichotomy a.priority b.priority with h | h | h
  · exact Or.inl (Or.inl h)
  · rcases lt_trichotomy (normErr a.error) (normErr b.error) with he | he | he
    · exact Or.inl (Or.inr ⟨h, Or.inl he⟩)
    · rcases le_total a.label b.label with hl | hl
      · exact Or.inl (Or.inr ⟨h, Or.inr ⟨he, hl⟩⟩)
      · exact Or.inr (Or.inr ⟨h.symm, Or.inr ⟨he.symm, hl⟩⟩)
    · exact Or.inr (Or.inr ⟨h.symm, Or.inl he⟩)
  · exact Or.inr (Or.inl h)

theorem specLe_trans (a b c : AttemptEntry) :
    specLe a b → specLe b c → specLe a c := by
  unfold specLe
  rintro (hab | ⟨hab, hab2⟩) (hbc | ⟨hbc, hbc2⟩)
  · exact Or.inl (lt_trans hab hbc)
  · exact Or.inl (by omega)
  · exact Or.inl (by omega)
  · refine Or.inr ⟨by omega, ?_⟩
    rcases hab2 with he | ⟨he, hl⟩
    · rcases hbc2 with hf | ⟨hf, _⟩
      · exact Or.inl (lt_trans he hf)
      · exact Or.inl (by rw [← hf]; exact he)
    · rcases hbc2 with hf | ⟨hf, hm⟩
      · exact Or.inl (by rw [he]; exact hf)
      · exact Or.inr ⟨by rw [he, hf], le_trans hl hm⟩

instance : IsTotal AttemptEntry jsLe :=
  ⟨fun a b => by rw [jsLe_iff, jsLe_iff]; exact specLe_total a b⟩

instance : IsTrans AttemptEntry jsLe :=
  ⟨fun a b c hab hbc =>
    (jsLe_iff a c).mpr (specLe_trans a b c ((jsLe_iff a b).mp hab) ((jsLe_iff b c).mp hbc))⟩

theorem bestAttempt_mem_min (l : List AttemptEntry) (w : AttemptEntry)
    (hw : bestAttempt l = some w) :
    w ∈ successfulAttempts l ∧ ∀ a ∈ successfulAttempts l, jsLe w a := by
  unfold bestAttempt at hw
  cases h : List.insertionSort jsLe (successfulAttempts l) with
  | nil => rw [h] at hw; simp at hw
  | cons x t =>
    rw [h] at hw
    simp only [List.head?] at hw
    have hxw : x = w := Option.some.inj hw
    subst hxw
    have hperm := List.perm_insertionSort jsLe (successfulAttempts l)
    constructor
    · have hmem : x ∈ List.insertionSort jsLe (successfulAttempts l) := by
        rw [h]; exact List.mem_cons_self x t
      exact hperm.subset hmem
    · intro a ha
      have ha2 : a ∈ List.insertionSort jsLe (successfulAttempts l) :=
        hperm.symm.subset ha
      rw [h] at ha2
      have hsorted := List.sorted_insertionSort jsLe (successfulAttempts l)
      rw [h] at hsorted
      rcases List.mem_cons.mp ha2 with rfl | hmem
      · exact jsLe_refl a
      · exact List.rel_of_sorted_cons hsorted a hmem

theorem specLe_priority_le (w a : AttemptEntry) (h : specLe w a) :
    w.priority ≤ a.priority := by
  rcases h with h | ⟨h, _⟩
  · exact le_of_lt h
  · exact le_of_eq h

theorem getErrorScore_of_fail (a : Option Approximation)
    (h : attemptSucceeded a = false) : getErrorScore a = JSNum.posInf := by
  cases a with
  | none => rfl
  | some ap =>
    have hs : ap.success = false := by simpa [attemptSucceeded] using h
    simp [getErrorScore, hs]

theorem segmentErrorList_eq_map_abs :
    ∀ segs : List (Option Seg),
      segmentErrorList segs =
        (segs.filterMap (fun os => os.bind (fun s => s.rmsError.bind finPart))).map
          (fun q => |q|) := by
  intro segs
  induction segs with
  | nil => rfl
  | cons os rest ih =>
    cases os with
    | none => simpa [segmentErrorList, List.filterMap_cons] using ih
    | some s =>
      cases hr : s.rmsError with
      | none =>
        simpa [segmentErrorList, List.filterMap_cons, hr, finPart] using ih
      | some v =>
        cases v with
        | fin q =>
          simpa [segmentErrorList, List.filterMap_cons, hr, finPart] using ih
        | posInf =>
          simpa [segmentErrorList, List.filterMap_cons, hr, finPart] using ih
        | negInf =>
          simpa [segmentErrorList, List.filterMap_cons, hr, finPart] using ih
        | nan =>
          simpa [segmentErrorList, List.filterMap_cons, hr, finPart] using ih


theorem errorScoreTail_eq (ap : Approximation) :
    getErrorScore.getErrorScoreTail ap =
      ((claimLinearityScore ap).orElse (fun _ =>
        (claimSegmentVals ap).bind (fun vals =>
          if vals.length ≠ 0 then
            some (JSNum.fin (rmean (vals.map (fun q => |q|))))
          else none))).getD JSNum.posInf := by
  cases hl : ap.averageLinearity with
  | some v =>
    simp [getErrorScore.getErrorScoreTail, claimLinearityScore, hl, Option.orElse]
  | none =>
    cases hsg : ap.segments with
    | none =>
      simp [getErrorScore.getErrorScoreTail, claimLinearityScore, claimSegmentVals,
        hl, hsg, Option.orElse]
    | some segs =>
      have habs := segmentErrorList_eq_map_abs segs
      simp only [getErrorScore.getErrorScoreTail, claimLinearityScore, claimSegmentVals,
        hl, hsg, Option.map_none', Option.map_some', Option.none_orElse, Option.some_bind]
      rw [habs]
      by_cases hz :
          (List.filterMap (fun os => os.bind fun s => s.rmsError.bind finPart) segs).length = 0
      · have h0 : ((List.filterMap (fun os => os.bind fun s => s.rmsError.bind finPart) segs).map
            (fun q => |q|)).length = 0 := by simpa using hz
        rw [if_neg (by simpa using h0), if_neg (by simpa using hz)]
        rfl
      · have h1 : ((List.filterMap (fun os => os.bind fun s => s.rmsError.bind finPart) segs).map
            (fun q => |q|)).length ≠ 0 := by simpa using hz
        rw [if_pos h1, if_pos (by simpa using hz)]
        simp [rmean]

theorem errorScore_eq_amended (a : Option Approximation) :
    getErrorScore a = specErrorScoreAmended a := by
  cases a with
  | none => rfl
  | some ap =>
    cases hs : ap.success with
    | false =>
      simp [getErrorScore, specErrorScoreAmended, attemptSucceeded, hs]
    | true =>
      have hRight : specErrorScoreAmended (some ap) =
          (((claimRmsScore ap).orElse (fun _ => claimLinearityScore ap)).orElse (fun _ =>
            (claimSegmentVals ap).bind (fun vals =>
              if vals.length ≠ 0 then
                some (JSNum.fin (rmean (vals.map (fun q => |q|))))
              else none))).getD JSNum.posInf := by
        simp [specErrorScoreAmended, attemptSucceeded, hs]
      rw [hRight]
      cases hd : ap.diagnostics with
      | some d =>
        cases hr : d.rmsError with
        | some v =>
          cases v with
          | fin q =>
            have hc : claimRmsScore ap = some (JSNum.fin |q|) := by
              simp [claimRmsScore, hd, hr, finPart]
            rw [hc]
            simp [getErrorScore, hs, hd, hr, Option.orElse]
          | posInf =>
            have hc : claimRmsScore ap = none := by
              simp [claimRmsScore, hd, hr, finPart]
            have hL : getErrorScore (some ap) = getErrorScore.getErrorScoreTail ap := by
              simp [getErrorScore, hs, hd, hr]
            rw [hc, hL, errorScoreTail_eq ap]
            exact rfl
          | negInf =>
            have hc : claimRmsScore ap = none := by
              simp [claimRmsScore, hd, hr, finPart]
            have hL : getErrorScore (some ap) = getErrorScore.getErrorScoreTail ap := by
              simp [getErrorScore, hs, hd, hr]
            rw [hc, hL, errorScoreTail_eq ap]
            exact rfl
          | nan =>
            have hc : claimRmsScore ap = none := by
              simp [claimRmsScore, hd, hr, finPart]
            have hL : getErrorScore (some ap) = getErrorScore.getErrorScoreTail ap := by
              simp [getErrorScore, hs, hd, hr]
            rw [hc, hL, errorScoreTail_eq ap]
            exact rfl
        | none =>
          have hc : claimRmsScore ap = none := by
            simp [claimRmsScore, hd, hr]
          have hL : getErrorScore (some ap) = getErrorScore.getErrorScoreTail ap := by
            simp [getErrorScore, hs, hd, hr]
          rw [hc, hL, errorScoreTail_eq ap]
          exact rfl
      | none =>
        have hc : claimRmsScore ap = none := by
          simp [claimRmsScore, hd]
        have hL : getErrorScore (some ap) = getErrorScore.getErrorScoreTail ap := by
          simp [getErrorScore, hs, hd]
        rw [hc, hL, errorScoreTail_eq ap]
        exact rfl

theorem storeInvList_setSlot (l : List (Option Curve)) (i : ℕ) (v : Option Curve)
    (hl : StoreInvList l) (hv : ∀ c, v = some c → c.id = i) :
    StoreInvList (setSlot l i v) := by
  intro j c h
  by_cases hij : i = j
  · subst hij
    rw [getSlot_setSlot_self] at h
    exact hv c h
  · rw [getSlot_setSlot_ne v l i j hij] at h
    exact hl j c h

theorem storeInvList_updateSlot (l : List (Option Curve)) (i : ℕ) (f : Curve → Curve)
    (hf : ∀ c, (f c).id = c.id) (hl : StoreInvList l) :
    StoreInvList (updateSlot l i f) := by
  unfold updateSlot
  cases hg : getSlot l i with
  | none => exact hl
  | some c =>
    refine storeInvList_setSlot l i (some (f c)) hl ?_
    intro u hu
    have hu2 : f c = u := Option.some.inj hu
    rw [← hu2, hf c]
    exact hl i c hg

theorem storeInv_addCurve (st : ManagerState) (d : CurveDescriptor)
    (h : StoreInv st)
    (hok : (getSlot st.curves d.id).isSome ∨ d.id = st.curves.length) :
    StoreInv (addCurveOp st d).1 := by
  unfold StoreInv addCurveOp at *
  cases hs : (getSlot st.curves d.id).isSome with
  | true =>
    simp only [hs, if_true]
    refine storeInvList_setSlot st.curves d.id (some (mkCurveFromDescriptor d)) h ?_
    intro c hc
    rw [← Option.some.inj hc]
    rfl
  | false =>
    simp only [hs, Bool.false_eq_true, if_false]
    rcases hok with hsome | hlen
    · rw [hs] at hsome
      exact absurd hsome (by simp)
    · intro j c hc
      rcases Nat.lt_trichotomy j st.curves.length with hj | hj | hj
      · rw [getSlot_append_lt st.curves _ j hj] at hc
        exact h j c hc
      · subst hj
        rw [getSlot_append_len] at hc
        rw [← Option.some.inj hc]
        exact hlen
      · rw [getSlot_append_gt st.curves _ j hj] at hc
        cases hc

theorem getSlot_after_placeholder (st : ManagerState) (d : HandDescriptor) :
    (getSlot
      (if (getSlot st.curves d.id).isSome then st
       else { st with curves := setSlot st.curves d.id (some (placeholderCurve d)) }).curves
      d.id).isSome := by
  cases hs : (getSlot st.curves d.id).isSome with
  | true => simp only [hs, if_true]
  | false =>
    simp only [hs, Bool.false_eq_true, if_false]
    rw [getSlot_setSlot_self]
    rfl

theorem storeInv_placeholder (st : ManagerState) (d : HandDescriptor)
    (h : StoreInv st) :
    StoreInv
      (if (getSlot st.curves d.id).isSome then st
       else { st with curves := setSlot st.curves d.id (some (placeholderCurve d)) }) := by
  cases hs : (getSlot st.curves d.id).isSome with
  | true => simpa only [hs, if_true] using h
  | false =>
    simp only [hs, Bool.false_eq_true, if_false]
    refine storeInvList_setSlot st.curves d.id (some (placeholderCurve d)) h ?_
    intro c hc
    rw [← Option.some.inj hc]
    rfl

theorem storeInv_hand (st : ManagerState) (d : HandDescriptor) (rs : StrategyResults)
    (h : StoreInv st) : StoreInv (addHandDrawnCurve st d rs).1 := by
  have h1 := storeInv_placeholder st d h
  have hslot := getSlot_after_placeholder st d
  cases hbest : bestAttempt (buildAttempts rs) with
  | some b =>
    cases hap : b.approximation with
    | some ap =>
      simp only [addHandDrawnCurve, hbest, hap]
      exact storeInvList_updateSlot _ d.id _ (fun c => rfl)
        (storeInv_addCurve _ _ h1 (Or.inl hslot))
    | none =>
      simp only [addHandDrawnCurve, hbest, hap]
      exact h1
  | none =>
    cases hadv : d.useAdvancedMode with
    | true =>
      simp only [addHandDrawnCurve, hbest, hadv, if_true]
      exact storeInv_addCurve _ _ h1 (Or.inl hslot)
    | false =>
      simp only [addHandDrawnCurve, hbest, hadv, Bool.false_eq_true, if_false]
      obtain ⟨c, hc⟩ := Option.isSome_iff_exists.mp hslot
      simp only [hc]
      cases hcond : (!c.hasGraphCurve || c.type == some "unknown") with
      | true =>
        simp only [hcond, if_true]
        refine storeInvList_setSlot _ d.id none h1 ?_
        intro u hu
        cases hu
      | false =>
        simp only [hcond, Bool.false_eq_true, if_false]
        exact h1

theorem storeInv_run (ops : List COp) (st : ManagerState)
    (h : StoreInv st) (hrun : RunOK st ops) : StoreInv (applyOps st ops) := by
  induction ops generalizing st with
  | nil => exact h
  | cons op rest ih =>
    obtain ⟨hstep, hrest⟩ := hrun
    have h2 : StoreInv (applyOp st op) := by
      cases op with
      | create d => exact storeInv_addCurve st d h hstep
      | hand d rs => exact storeInv_hand st d rs h
      | del i =>
        show StoreInv (deleteCurveOp st i).1
        unfold deleteCurveOp
        cases hg : getSlot st.curves i with
        | none => exact h
        | some c => exact storeInvList_renumber _
      | reorder f t =>
        exact storeInvList_renumber _
    exact ih (applyOp st op) h2 hrest

/-- C2 (counterexample): the claim computes the fallback chain for
every attempt, but `getErrorScore` short-circuits unsuccessful
attempts to `+Infinity` before the chain runs.  On an unsuccessful
attempt with finite `diagnostics.rmsError = 1` the code yields
`+Infinity` while the claimed chain yields `1`. -/
theorem c2_errorscore_counterexample :
    getErrorScore (some apFailedFiniteRms) ≠ specErrorScoreClaim (some apFailedFiniteRms) ∧
    getErrorScore (some apFailedFiniteRms) = JSNum.posInf ∧
    specErrorScoreClaim (some apFailedFiniteRms) = JSNum.fin 1 := by
  decide

/-- C2 (amended): for every attempt with `success == true` the error
score follows the claimed fallback chain, except that clause (c) takes
the mean of the absolute values of the finite per-segment rmsError
values; every null or unsuccessful attempt scores `+Infinity`. -/
theorem c2_errorscore_chain (a : Option Approximation) :
    getErrorScore a = specErrorScoreAmended a :=
  errorScore_eq_amended a

/-- C10: after every completed `deleteCurve`, `settings.nextCurveId`
equals the length of the curve store, and after `clearCanvas` the store
is empty with `nextCurveId = 0`, so the id handed to the next created
curve (callers allocate it from `nextCurveId`) equals the store length
after a structural removal. -/
theorem c10_next_id_tracks_length (st : ManagerState) (id : ℕ) (c : Curve)
    (h : getSlot st.curves id = some c) :
    (deleteCurveOp st id).1.nextCurveId = (deleteCurveOp st id).1.curves.length ∧
    (clearCanvasOp st).1.curves = [] ∧
    (clearCanvasOp st).1.nextCurveId = 0 := by
  simp [deleteCurveOp, h, clearCanvasOp]

/-- C10 witness: deleting the only curve of the one-curve sample state. -/
theorem c10_witness :
    getSlot sampleState.curves 0 = some sampleCurve ∧
    ((deleteCurveOp sampleState 0).1.nextCurveId =
        (deleteCurveOp sampleState 0).1.curves.length ∧
      (clearCanvasOp sampleState).1.curves = [] ∧
      (clearCanvasOp sampleState).1.nextCurveId = 0) :=
  ⟨rfl, c10_next_id_tracks_length sampleState 0 sampleCurve rfl⟩

/-- C9 (counterexample): the claim says every id-taking operation is a
silent no-op on a missing id, but `reorderCurves` has no guard: with
the out-of-range `fromId = 5` on a one-curve store it still splices,
inserting an empty slot at index 0 and renumbering the curve to id 1,
so the store changes. -/
theorem c9_missing_id_counterexample :
    getSlot sampleState.curves 5 = none ∧
    (reorderCurvesOp sampleState 5 0).1 ≠ sampleState := by
  constructor
  · rfl
  · decide

/-- C9 (amended): for an out-of-range or empty slot id, `deleteCurve`,
`toggleCurveVisibility`, `toggleDetailVisibility`, and `setKnotCount`
are silent no-ops that leave the state untouched (and push no history
record); `reorderCurves` is excluded, since it splices and renumbers
even when `fromId` names no live curve. -/
theorem c9_missing_id_noop (st : ManagerState) (id : ℕ)
    (h : getSlot st.curves id = none) :
    deleteCurveOp st id = (st, []) ∧
    toggleCurveVisibilityOp st id = (st, []) ∧
    toggleDetailVisibilityOp st id = (st, []) ∧
    ∀ approx dom k, setKnotCountOp st approx dom id k = (st, none) := by
  refine ⟨?_, ?_, ?_, ?_⟩
  · simp [deleteCurveOp, h]
  · simp [toggleCurveVisibilityOp, h]
  · simp [toggleDetailVisibilityOp, h]
  · intro approx dom k
    simp [setKnotCountOp, h]

/-- C9 witness: id 0 on the empty store. -/
theorem c9_witness :
    getSlot emptyState.curves 0 = none ∧
    (deleteCurveOp emptyState 0 = (emptyState, []) ∧
      toggleCurveVisibilityOp emptyState 0 = (emptyState, []) ∧
      toggleDetailVisibilityOp emptyState 0 = (emptyState, []) ∧
      ∀ approx dom k, setKnotCountOp emptyState approx dom 0 k = (emptyState, none)) :=
  ⟨rfl, c9_missing_id_noop emptyState 0 rfl⟩

/-- C7 (counterexample): the claim requires every user-visible
mutation to push its history record after the mutation has been
applied, but `toggleCurveVisibility` pushes the record first (line
1050) and applies the flag flip afterwards (line 1058): its trace
starts with the push, so no decomposition into mutations followed by a
final push exists. -/
theorem c7_order_counterexample :
    (toggleCurveVisibilityOp sampleState 0).2 = [Ev.push "toggleVisibility", Ev.apply] ∧
    ¬ RecordAfterMutation (toggleCurveVisibilityOp sampleState 0).2 := by
  have h2 : (toggleCurveVisibilityOp sampleState 0).2 =
      [Ev.push "toggleVisibility", Ev.apply] := by decide
  refine ⟨h2, ?_⟩
  intro hram
  obtain ⟨pre, s, hpre, heq⟩ := hram
  rw [h2] at heq
  cases pre with
  | nil => simp at heq
  | cons a pre2 =>
    have ha := hpre a (List.mem_cons_self a pre2)
    rw [ha] at heq
    simp at heq

/-- C7 (amended): each of the modeled user-visible mutations pushes
exactly one action record to the history collaborator before the
operation returns; create (`addCurve`) and `reorderCurves` push it
after the store mutation is applied, while `deleteCurve`,
`toggleCurveVisibility`, and `toggleDetailVisibility` push it before
applying the mutation. -/
theorem c7_history_record_order :
    (∀ st d, (addCurveOp st d).2 = [Ev.apply, Ev.push "add"] ∧
      pushCount (addCurveOp st d).2 = 1) ∧
    (∀ st f t, (reorderCurvesOp st f t).2 = [Ev.apply, Ev.push "reorder"] ∧
      pushCount (reorderCurvesOp st f t).2 = 1) ∧
    (∀ st i c, getSlot st.curves i = some c →
      (deleteCurveOp st i).2 = [Ev.push "delete", Ev.apply] ∧
      pushCount (deleteCurveOp st i).2 = 1) ∧
    (∀ st i c, getSlot st.curves i = some c →
      (toggleCurveVisibilityOp st i).2 = [Ev.push "toggleVisibility", Ev.apply] ∧
      pushCount (toggleCurveVisibilityOp st i).2 = 1) ∧
    (∀ st i c, getSlot st.curves i = some c →
      (toggleDetailVisibilityOp st i).2 = [Ev.push "toggleDetails", Ev.apply] ∧
      pushCount (toggleDetailVisibilityOp st i).2 = 1) := by
  refine ⟨?_, ?_, ?_, ?_, ?_⟩
  · intro st d
    exact ⟨rfl, rfl⟩
  · intro st f t
    exact ⟨rfl, rfl⟩
  · intro st i c h
    constructor
    · simp [deleteCurveOp, h]
    · simp [deleteCurveOp, h, pushCount]
  · intro st i c h
    constructor
    · simp [toggleCurveVisibilityOp, h]
    · simp [toggleCurveVisibilityOp, h, pushCount]
  · intro st i c h
    constructor
    · simp [toggleDetailVisibilityOp, h]
    · simp [toggleDetailVisibilityOp, h, pushCount]

/-- C7 witness: the delete trace on the one-curve sample state. -/
theorem c7_witness :
    getSlot sampleState.curves 0 = some sampleCurve ∧
    ((deleteCurveOp sampleState 0).2 = [Ev.push "delete", Ev.apply] ∧
      pushCount (deleteCurveOp sampleState 0).2 = 1) :=
  ⟨rfl, c7_history_record_order.2.2.1 sampleState 0 sampleCurve rfl⟩

/-- C8: deleting the curve at a live index `i` drops the slot, shifts
every slot at `j > i` down to `j - 1` with its `id` field rewritten to
the new index, rewrites the `id` of every earlier slot to its
(unchanged) index, and changes no other field of any remaining curve. -/
theorem c8_delete_reindex (st : ManagerState) (i : ℕ) (c : Curve)
    (hc : getSlot st.curves i = some c) :
    (deleteCurveOp st i).1.curves.length = st.curves.length - 1 ∧
    (∀ j, j < i → getSlot (deleteCurveOp st i).1.curves j =
      (getSlot st.curves j).map (fun u => { u with id := j })) ∧
    (∀ j, i < j → j < st.curves.length →
      getSlot (deleteCurveOp st i).1.curves (j - 1) =
        (getSlot st.curves j).map (fun u => { u with id := j - 1 })) := by
  have hlen := getSlot_some_lt st.curves i c hc
  simp only [deleteCurveOp, hc]
  refine ⟨?_, ?_, ?_⟩
  · rw [length_renumberFrom, length_eraseAt_of_lt st.curves i hlen]
  · intro j hj
    rw [getSlot_renumberFrom, getSlot_eraseAt_of_lt st.curves i j hj]
    simp
  · intro j hj1 hj2
    rw [getSlot_renumberFrom, getSlot_eraseAt_of_le st.curves i (j - 1) (by omega)]
    have hj3 : j - 1 + 1 = j := by omega
    rw [hj3]
    simp

/-- C8 witness: deleting index 1 of a three-curve store. -/
theorem c8_witness :
    getSlot threeState.curves 1 = some (curveAt 1 "#00bb00") ∧
    ((deleteCurveOp threeState 1).1.curves.length = threeState.curves.length - 1 ∧
      (∀ j, j < 1 → getSlot (deleteCurveOp threeState 1).1.curves j =
        (getSlot threeState.curves j).map (fun u => { u with id := j })) ∧
      (∀ j, 1 < j → j < threeState.curves.length →
        getSlot (deleteCurveOp threeState 1).1.curves (j - 1) =
          (getSlot threeState.curves j).map (fun u => { u with id := j - 1 }))) :=
  ⟨rfl, c8_delete_reindex threeState 1 (curveAt 1 "#00bb00") rfl⟩

/-- C5: for every curve (with original sample points and an attached
graph calculator) and every desired knot count `k`, the knot-count
recompute invokes the quadratic B-spline strategy on exactly the
curve's original sample points together with exactly those `preKnots`
entries whose `priority` is strictly below `k - 2`, sorted in ascending
order of their knot position. -/
theorem c5_recompute_knot_selection (st : ManagerState)
    (approx : List Point → List PreKnot → Domain → SplineResult)
    (dom : Domain) (id : ℕ) (k : ℤ) (curve : Curve) (pts : List Point)
    (h1 : getSlot st.curves id = some curve)
    (h2 : curve.originalPoints = some pts)
    (h3 : st.hasGraphCalculator = true) :
    ∃ ks, (setKnotCountOp st approx dom id k).2 =
        some { points := pts, customKnots := ks, domain := dom } ∧
      ks.Perm (curve.preKnots.filter (fun p => decide (p.priority < k - 2))) ∧
      List.Sorted knotLe ks := by
  refine ⟨List.insertionSort knotLe
    (curve.preKnots.filter (fun p => decide (p.priority < k - 2))), ?_, ?_, ?_⟩
  · simp only [setKnotCountOp, h1, h2, h3]
    by_cases hres : (approx pts (List.insertionSort knotLe
        (curve.preKnots.filter (fun p => decide (p.priority < k - 2)))) dom).success = false
    · simp [hres]
    · simp only [hres, Bool.false_eq_true, if_false]
      by_cases hgc : curve.hasGraphCurve <;> simp [hgc]
  · exact List.perm_insertionSort knotLe _
  · exact List.sorted_insertionSort knotLe _

/-- C5 witness: curve 0 of the sample state with desired knot count 5
retains the two pre-knots of priority 0 and 1 (both below 3), sorted by
knot position. -/
theorem c5_witness :
    getSlot sampleState.curves 0 = some sampleCurve ∧
    sampleCurve.originalPoints = some [(0, 0), (1, 1)] ∧
    sampleState.hasGraphCalculator = true ∧
    (∃ ks, (setKnotCountOp sampleState approxAlwaysFail sampleDomain 0 5).2 =
        some { points := [(0, 0), (1, 1)], customKnots := ks, domain := sampleDomain } ∧
      ks.Perm (sampleCurve.preKnots.filter (fun p => decide (p.priority < 5 - 2))) ∧
      List.Sorted knotLe ks) :=
  ⟨rfl, rfl, rfl,
    c5_recompute_knot_selection sampleState approxAlwaysFail sampleDomain 0 5
      sampleCurve [(0, 0), (1, 1)] rfl rfl rfl⟩

/-- C6: when the re-invoked quadratic B-spline strategy reports
failure, the knot-count recompute leaves the whole manager state
unchanged; conversely, any change to the state implies the strategy
invocation reported success. -/
theorem c6_recompute_failure_unchanged (st : ManagerState)
    (approx : List Point → List PreKnot → Domain → SplineResult)
    (dom : Domain) (id : ℕ) (k : ℤ) :
    (∀ call, (setKnotCountOp st approx dom id k).2 = some call →
      (approx call.points call.customKnots call.domain).success = false →
      (setKnotCountOp st approx dom id k).1 = st) ∧
    ((setKnotCountOp st approx dom id k).1 ≠ st →
      ∃ call, (setKnotCountOp st approx dom id k).2 = some call ∧
        (approx call.points call.customKnots call.domain).success = true) := by
  cases hg : getSlot st.curves id with
  | none =>
    constructor
    · intro call hcall hfail
      simp [setKnotCountOp, hg] at hcall
    · intro hne
      exact absurd (by simp [setKnotCountOp, hg]) hne
  | some curve =>
    cases ho : curve.originalPoints with
    | none =>
      constructor
      · intro call hcall hfail
        simp [setKnotCountOp, hg, ho] at hcall
      · intro hne
        exact absurd (by simp [setKnotCountOp, hg, ho]) hne
    | some pts =>
      by_cases hcalc : st.hasGraphCalculator = false
      · constructor
        · intro call hcall hfail
          simp [setKnotCountOp, hg, ho, hcalc] at hcall
        · intro hne
          exact absurd (by simp [setKnotCountOp, hg, ho, hcalc]) hne
      · by_cases hres : (approx pts (List.insertionSort knotLe
            (curve.preKnots.filter (fun p => decide (p.priority < k - 2)))) dom).success = false
        · constructor
          · intro call hcall hfail
            simp [setKnotCountOp, hg, ho, hcalc, hres]
          · intro hne
            exact absurd (by simp [setKnotCountOp, hg, ho, hcalc, hres]) hne
        · have hres2 : (approx pts (List.insertionSort knotLe
              (curve.preKnots.filter (fun p => decide (p.priority < k - 2)))) dom).success
              = true := by
            cases hb : (approx pts (List.insertionSort knotLe
                (curve.preKnots.filter (fun p => decide (p.priority < k - 2)))) dom).success
            · exact absurd hb hres
            · rfl
          have hcd : (setKnotCountOp st approx dom id k).2 =
              some (knotCallOf curve pts dom k) := by
            by_cases hgc : curve.hasGraphCurve <;>
              simp [setKnotCountOp, knotCallOf, hg, ho, hcalc, hres, hgc]
          constructor
          · intro call hcall hfail
            rw [hcd] at hcall
            have hceq : knotCallOf curve pts dom k = call := Option.some.inj hcall
            rw [← hceq] at hfail
            simp only [knotCallOf] at hfail
            rw [hfail] at hres2
            cases hres2
          · intro hne
            exact ⟨knotCallOf curve pts dom k, hcd, by simpa [knotCallOf] using hres2⟩

/-- C6 witness: an always-failing strategy leaves the sample state
untouched for curve 0 and desired knot count 5. -/
theorem c6_witness :
    (setKnotCountOp sampleState approxAlwaysFail sampleDomain 0 5).2 = some sampleKnotCall ∧
    (approxAlwaysFail sampleKnotCall.points sampleKnotCall.customKnots
      sampleKnotCall.domain).success = false ∧
    (setKnotCountOp sampleState approxAlwaysFail sampleDomain 0 5).1 = sampleState :=
  ⟨by decide, by decide,
    (c6_recompute_failure_unchanged sampleState approxAlwaysFail sampleDomain 0 5).1
      sampleKnotCall (by decide) (by decide)⟩

/-- C3 (counterexample): `addCurve` with a descriptor id that names
neither an existing slot nor the next fresh index pushes the new curve
onto the end of the array, so on an empty store a single create with
id 1 yields a store whose slot 0 holds a curve with `id = 1`, breaking
the identity invariant. -/
theorem c3_identity_counterexample :
    ¬ StoreInv (applyOps emptyState [COp.create badCreateDescriptor]) :=
  fun h =>
    absurd (h 0 (mkCurveFromDescriptor badCreateDescriptor) (by decide)) (by decide)

/-- C3 (amended): after any finite sequence of create
(`addCurve` / `addHandDrawnCurve`), delete, and reorder operations,
every non-empty slot `i` of the curve store holds a curve with
`id = i`, provided every `addCurve` call targets an existing non-empty
slot (the placeholder pattern) or uses the current store length as its
id — which is how every caller allocates ids, via
`settings.nextCurveId`.  `addHandDrawnCurve`, `deleteCurve`, and
`reorderCurves` need no proviso. -/
theorem c3_identity_invariant (st : ManagerState) (ops : List COp)
    (h : StoreInv st) (hrun : RunOK st ops) :
    StoreInv (applyOps st ops) :=
  storeInv_run ops st h hrun

/-- C3 witness: a create at the fresh index followed by a delete,
starting from the empty store. -/
theorem c3_witness :
    StoreInv emptyState ∧
    RunOK emptyState [COp.create freshCreateDescriptor, COp.del 0] ∧
    StoreInv (applyOps emptyState [COp.create freshCreateDescriptor, COp.del 0]) := by
  have h1 : StoreInv emptyState := by
    intro i c hc
    rw [show emptyState.curves = [] from rfl, getSlot_nil] at hc
    cases hc
  have h2 : RunOK emptyState [COp.create freshCreateDescriptor, COp.del 0] :=
    ⟨Or.inr rfl, trivial, trivial⟩
  exact ⟨h1, h2, c3_identity_invariant emptyState _ h1 h2⟩

/-- C4: when no strategy attempt succeeds and advanced mode is off,
`addHandDrawnCurve` returns a failure result whose diagnostics carry an
alternatives list with exactly one entry per attempted strategy — in
registration order — each recording that strategy's label, type,
`success = false`, priority tier, and error (recorded as null, since a
failed attempt's error score is `+Infinity`). -/
theorem c4_nofit_alternatives (st : ManagerState) (d : HandDescriptor)
    (rs : StrategyResults)
    (h1 : attemptSucceeded rs.piecewise = false)
    (h2 : attemptSucceeded rs.linear = false)
    (h3 : attemptSucceeded rs.singleQuadratic = false)
    (h4 : attemptSucceeded rs.singleCircle = false)
    (h5 : attemptSucceeded rs.quadraticBSpline = false)
    (h6 : attemptSucceeded rs.selective = false)
    (hadv : d.useAdvancedMode = false) :
    (addHandDrawnCurve st d rs).2.success = false ∧
    (addHandDrawnCurve st d rs).2.alternatives = some
      [ { label := "piecewiseLinear", type := rs.piecewise.bind Approximation.type,
          success := false, priority := 0, error := none },
        { label := "linear", type := rs.linear.bind Approximation.type,
          success := false, priority := 2, error := none },
        { label := "singleQuadratic", type := rs.singleQuadratic.bind Approximation.type,
          success := false, priority := 3, error := none },
        { label := "singleCircle", type := rs.singleCircle.bind Approximation.type,
          success := false, priority := 4, error := none },
        { label := "quadraticBSpline", type := rs.quadraticBSpline.bind Approximation.type,
          success := false, priority := 5, error := none },
        { label := "selectiveHybrid", type := rs.selective.bind Approximation.type,
          success := false, priority := 7, error := none } ] := by
  have e1 := getErrorScore_of_fail rs.piecewise h1
  have e2 := getErrorScore_of_fail rs.linear h2
  have e3 := getErrorScore_of_fail rs.singleQuadratic h3
  have e4 := getErrorScore_of_fail rs.singleCircle h4
  have e5 := getErrorScore_of_fail rs.quadraticBSpline h5
  have e6 := getErrorScore_of_fail rs.selective h6
  have hsucc : successfulAttempts (buildAttempts rs) = [] := by
    simp [successfulAttempts, buildAttempts, List.filter, h1, h2, h3, h4, h5, h6]
  have hbest : bestAttempt (buildAttempts rs) = none := by
    simp [bestAttempt, hsucc]
  have hlin : (match rs.linear with
      | some a => if a.success && a.type == some "constant" then (1 : ℕ) else 2
      | none => 2) = 2 := by
    cases hl : rs.linear with
    | none => rfl
    | some a =>
      rw [hl] at h2
      simp [attemptSucceeded] at h2
      simp [h2]
  have hlab : (match rs.linear with
      | some a => if a.success && a.type == some "vertical" then "linearVertical" else "linear"
      | none => "linear") = "linear" := by
    cases hl : rs.linear with
    | none => rfl
    | some a =>
      rw [hl] at h2
      simp [attemptSucceeded] at h2
      simp [h2]
  constructor
  · simp [addHandDrawnCurve, hbest, hadv]
  · simp only [addHandDrawnCurve, hbest, hadv, Bool.false_eq_true, if_false]
    simp only [attemptDiagnostics, buildAttempts, List.map, hlin, hlab,
      e1, e2, e3, e4, e5, e6, h1, h2, h3, h4, h5, h6, finPart]

/-- C4 witness: a stroke on which every strategy returns no result,
with advanced mode off. -/
theorem c4_witness :
    attemptSucceeded rsAllFail.piecewise = false ∧
    attemptSucceeded rsAllFail.linear = false ∧
    attemptSucceeded rsAllFail.singleQuadratic = false ∧
    attemptSucceeded rsAllFail.singleCircle = false ∧
    attemptSucceeded rsAllFail.quadraticBSpline = false ∧
    attemptSucceeded rsAllFail.selective = false ∧
    sampleHand.useAdvancedMode = false ∧
    ((addHandDrawnCurve emptyState sampleHand rsAllFail).2.success = false ∧
      (addHandDrawnCurve emptyState sampleHand rsAllFail).2.alternatives = some
        [ { label := "piecewiseLinear", type := rsAllFail.piecewise.bind Approximation.type,
            success := false, priority := 0, error := none },
          { label := "linear", type := rsAllFail.linear.bind Approximation.type,
            success := false, priority := 2, error := none },
          { label := "singleQuadratic", type := rsAllFail.singleQuadratic.bind Approximation.type,
            success := false, priority := 3, error := none },
          { label := "singleCircle", type := rsAllFail.singleCircle.bind Approximation.type,
            success := false, priority := 4, error := none },
          { label := "quadraticBSpline", type := rsAllFail.quadraticBSpline.bind Approximation.type,
            success := false, priority := 5, error := none },
          { label := "selectiveHybrid", type := rsAllFail.selective.bind Approximation.type,
            success := false, priority := 7, error := none } ]) :=
  ⟨rfl, rfl, rfl, rfl, rfl, rfl, rfl,
    c4_nofit_alternatives emptyState sampleHand rsAllFail rfl rfl rfl rfl rfl rfl rfl⟩

/-- C1: whenever some strategy attempt succeeds, the winner picked by
`addHandDrawnCurve` is a successful attempt that is least under the
spec ordering — priority ascending, then error score ascending with
non-finite scores last, then label lexicographic — over all successful
attempts; in particular its priority is no larger than any successful
attempt's priority (a lower-priority success beats a higher-priority
one regardless of error scores), and the operation reports it as the
selected approximator. -/
theorem c1_selector_priority_then_error (st : ManagerState) (d : HandDescriptor)
    (rs : StrategyResults) (w : AttemptEntry)
    (hw : bestAttempt (buildAttempts rs) = some w) :
    w ∈ successfulAttempts (buildAttempts rs) ∧
    (∀ a ∈ successfulAttempts (buildAttempts rs), specLe w a) ∧
    (∀ a ∈ successfulAttempts (buildAttempts rs), w.priority ≤ a.priority) ∧
    (addHandDrawnCurve st d rs).2.success = true ∧
    (addHandDrawnCurve st d rs).2.selectedApproximator = some w.label := by
  obtain ⟨hmem, hmin⟩ := bestAttempt_mem_min (buildAttempts rs) w hw
  have hspec : ∀ a ∈ successfulAttempts (buildAttempts rs), specLe w a :=
    fun a ha => (jsLe_iff w a).mp (hmin a ha)
  have hsucc : attemptSucceeded w.approximation = true := by
    have hm2 : w ∈ List.filter (fun e => attemptSucceeded e.approximation)
        (buildAttempts rs) := by
      simpa [successfulAttempts] using hmem
    exact (List.mem_filter.mp hm2).2
  refine ⟨hmem, hspec, fun a ha => specLe_priority_le w a (hspec a ha), ?_, ?_⟩
  · cases hap : w.approximation with
    | none => rw [hap] at hsucc; simp [attemptSucceeded] at hsucc
    | some ap => simp [addHandDrawnCurve, hw, hap]
  · cases hap : w.approximation with
    | none => rw [hap] at hsucc; simp [attemptSucceeded] at hsucc
    | some ap => simp [addHandDrawnCurve, hw, hap]

/-- C1 witness: with a successful linear fit of error score 5 and a
successful B-spline fit of the strictly smaller error score 1/10, the
selector still picks the linear attempt, whose priority 2 is below the
B-spline's 5. -/
theorem c1_witness :
    bestAttempt (buildAttempts rsTwoWins) = some winTwoWins ∧
    (winTwoWins ∈ successfulAttempts (buildAttempts rsTwoWins) ∧
      (∀ a ∈ successfulAttempts (buildAttempts rsTwoWins), specLe winTwoWins a) ∧
      (∀ a ∈ successfulAttempts (buildAttempts rsTwoWins),
        winTwoWins.priority ≤ a.priority) ∧
      (addHandDrawnCurve sampleState sampleHand rsTwoWins).2.success = true ∧
      (addHandDrawnCurve sampleState sampleHand rsTwoWins).2.selectedApproximator =
        some winTwoWins.label) :=
  ⟨by decide,
    c1_selector_priority_then_error sampleState sampleHand rsTwoWins winTwoWins (by decide)⟩
